import Mathlib

/-!
Verification development for the Agentic-ai-Telebot planning-and-execution core.

The Python source is shallowly embedded: datetimes are modelled as `Int`
(seconds since an arbitrary epoch), timedeltas as `Int` seconds, Python values
flowing through entity dictionaries and tool parameters as the inductive
`PyVal`, Python dicts as association lists with first-match lookup and
in-place update, and the external libraries (dateparser/dateutil, the LLM
client, pydantic validation, the regex helpers that no claim depends on) as
explicit function parameters.  The regular expressions that the verified
claims do depend on (duration extraction, the relative-time patterns,
placeholder substitution, the title heuristic) are embedded concretely as
character-list scanners reproducing Python `re.search`/`re.sub` semantics on
those patterns.
-/

set_option maxRecDepth 40000

namespace TeleBot

/-! ### Character classes and small scanners (Python `re` semantics) -/

/-- Python regex `\w` on ASCII text: letters, digits and underscore. -/
def isWordChar (c : Char) : Bool := c.isAlphanum || c = '_'

/-- Python regex `\s` on ASCII text. -/
def isSpaceChar (c : Char) : Bool :=
  c = ' ' || c = '\t' || c = '\n' || c = '\r' || c = '\x0b' || c = '\x0c'

/-- ASCII lower-casing, as Python `str.lower` on the ASCII texts involved. -/
def lowerChar (c : Char) : Char :=
  if c.isUpper then Char.ofNat (c.toNat + 32) else c

def lowerList (l : List Char) : List Char := l.map lowerChar

/-- Value of a digit string, as Python `int` applied to a `(\d+)` group. -/
def digitsToNat (l : List Char) : Nat :=
  l.foldl (fun acc c => 10 * acc + (c.toNat - '0'.toNat)) 0

/-- Substring containment, as Python `pat in hay`. -/
def containsSub (pat : List Char) : List Char → Bool
  | [] => pat.isEmpty
  | c :: rest => pat.isPrefixOf (c :: rest) || containsSub pat rest

def strContains (hay pat : String) : Bool := containsSub pat.data hay.data

/-- Consume one-or-more spaces (`\s+`), greedily; the patterns that use it are
always followed by a non-space literal, so greedy matching is exact. -/
def spaces1 (l : List Char) : Option (List Char) :=
  match l with
  | c :: rest => if isSpaceChar c then some (rest.dropWhile isSpaceChar) else none
  | [] => none

/-- Consume one-or-more digits (`\d+`), greedily; always followed by a
non-digit in the patterns below, so greedy matching is exact. -/
def digits1 (l : List Char) : Option (List Char) :=
  match l with
  | c :: rest => if c.isDigit then some (rest.dropWhile Char.isDigit) else none
  | [] => none

/-! ### `DateTimeParser.extract_duration` (src/utils/nlp.py lines 60-85) -/

def minuteUnits : List (List Char) :=
  ["minute".data, "min".data, "minutes".data, "mins".data]
def hourUnits : List (List Char) :=
  ["hour".data, "hr".data, "hours".data, "hrs".data]
def dayUnits : List (List Char) := ["day".data, "days".data]
def weekUnits : List (List Char) := ["week".data, "weeks".data]

/-- Attempt the pattern `(\d+)\s*(?:unit-alternatives)` at the head of `l`,
returning the value of the digit group. -/
def durPatAt (units : List (List Char)) (l : List Char) : Option Nat :=
  match l with
  | [] => none
  | c :: _ =>
    if c.isDigit then
      let ds := l.takeWhile Char.isDigit
      let l2 := (l.drop ds.length).dropWhile isSpaceChar
      if units.any (fun u => u.isPrefixOf l2) then some (digitsToNat ds) else none
    else none

/-- Leftmost search of `(\d+)\s*(?:unit-alternatives)`, as `re.search`. -/
def durPatSearch (units : List (List Char)) : List Char → Option Nat
  | [] => none
  | c :: rest =>
    match durPatAt units (c :: rest) with
    | some n => some n
    | none => durPatSearch units rest

/-- Embedding of `DateTimeParser.extract_duration`: the four unit patterns are
tried in the fixed source order minutes, hours, days, weeks over the
lower-cased text; the result is a timedelta in seconds. -/
def extract_duration (text : String) : Option Int :=
  let l := lowerList text.data
  match durPatSearch minuteUnits l with
  | some n => some (60 * (n : Int))
  | none =>
    match durPatSearch hourUnits l with
    | some n => some (3600 * (n : Int))
    | none =>
      match durPatSearch dayUnits l with
      | some n => some (86400 * (n : Int))
      | none =>
        match durPatSearch weekUnits l with
        | some n => some (604800 * (n : Int))
        | none => none

/-! ### `IntentExtractor.extract_intent` (src/utils/nlp.py lines 92-121) -/

/-- The `INTENT_KEYWORDS` table in source (dict insertion) order. -/
def intentKeywords : List (String × List String) :=
  [("create_event", ["schedule", "appointment", "meeting", "event", "save the date", "book"]),
   ("create_reminder", ["remind", "reminder", "alert", "notify"]),
   ("create_note", ["note", "write down", "remember", "jot down"]),
   ("create_task", ["task", "todo", "to-do", "need to do"]),
   ("query_events", ["what", "when", "show", "list", "upcoming"]),
   ("cancel", ["cancel", "delete", "remove"]),
   ("update", ["change", "update", "modify", "reschedule"])]

/-- Embedding of `IntentExtractor.extract_intent`: first table entry with a
keyword contained in the lower-cased message wins; default `general_query`. -/
def extract_intent (text : String) : String :=
  let lower := String.mk (lowerList text.data)
  match intentKeywords.find? (fun p => p.2.any (fun kw => strContains lower kw)) with
  | some p => p.1
  | none => "general_query"

/-! ### Title extraction inside `extract_event_info` (src/utils/nlp.py lines 161-174) -/

/-- Leftmost `"([^"]+)"` search: first double quote with a non-empty run of
non-quote characters up to a closing quote. -/
def quotedSearch : List Char → Option (List Char)
  | [] => none
  | c :: rest =>
    if c = '"' then
      let content := rest.takeWhile (fun d => d ≠ '"')
      if content.isEmpty then quotedSearch rest
      else if (rest.drop content.length).head? = some '"' then some content
      else quotedSearch rest
    else quotedSearch rest

/-- The optional trailing group `(\s+\w+)?`: greedily one-or-more spaces then
one-or-more word characters, or nothing. -/
def titleSuffixPart (l : List Char) : List Char :=
  let s := l.takeWhile isSpaceChar
  if s.isEmpty then []
  else
    let w := (l.drop s.length).takeWhile isWordChar
    if w.isEmpty then [] else s ++ w

/-- Attempt `(\w+\s+)?kw(\s+\w+)?` at the head of `l`, returning the matched
span (regex group 0).  The greedy optional prefix `(\w+\s+)?` is exact here:
shortening a maximal `\w+` or `\s+` run cannot help because the next required
character class differs. -/
def keywordMatchAt (kw : List Char) (l : List Char) : Option (List Char) :=
  let alt1 : Option (List Char) :=
    let w := l.takeWhile isWordChar
    if w.isEmpty then none
    else
      let l1 := l.drop w.length
      let s := l1.takeWhile isSpaceChar
      if s.isEmpty then none
      else
        let l2 := l1.drop s.length
        if kw.isPrefixOf l2 then
          some (w ++ s ++ kw ++ titleSuffixPart (l2.drop kw.length))
        else none
  match alt1 with
  | some m => some m
  | none =>
    if kw.isPrefixOf l then some (kw ++ titleSuffixPart (l.drop kw.length)) else none

/-- Leftmost search of `(\w+\s+)?kw(\s+\w+)?`, as `re.search`. -/
def keywordSearch (kw : List Char) : List Char → Option (List Char)
  | [] => keywordMatchAt kw []
  | c :: rest =>
    match keywordMatchAt kw (c :: rest) with
    | some m => some m
    | none => keywordSearch kw rest

/-- Python `str.strip` on the matched span. -/
def stripSpaces (l : List Char) : List Char :=
  ((l.dropWhile isSpaceChar).reverse.dropWhile isSpaceChar).reverse

def titleKeywords : List String := ["appointment", "meeting", "event"]

/-- The keyword loop of the title heuristic: for the first keyword contained
in the lower-cased text whose pattern matches, the stripped matched span. -/
def titleFromKeywords (lower : String) : List String → Option String
  | [] => none
  | kw :: rest =>
    if strContains lower kw then
      match keywordSearch kw.data lower.data with
      | some m => some (String.mk (stripSpaces m))
      | none => titleFromKeywords lower rest
    else titleFromKeywords lower rest

/-- Title extraction of `extract_event_info`: quoted span on the original
text first, else the keyword heuristic on the lower-cased text. -/
def extractTitle (text : String) : Option String :=
  match quotedSearch text.data with
  | some t => some (String.mk t)
  | none => titleFromKeywords (String.mk (lowerList text.data)) titleKeywords

/-! ### `extract_event_info` (src/utils/nlp.py lines 123-177) -/

structure EventInfo where
  raw_text : String
  datetime : Option Int
  title : Option String
  duration : Option Int
  reminder_before : Option Int
deriving Repr, DecidableEq

/-- Embedding of `IntentExtractor.extract_event_info`.  The datetime field
delegates to the external dateparser/dateutil libraries, modelled by the
parameter `pd` (returning `none` on total parse failure); the
`reminder_before` regex extraction is likewise abstracted by `rb` (no claim
depends on its value).  Title and duration extraction are embedded
concretely. -/
def extract_event_info (pd rb : String → Option Int) (text : String) : EventInfo :=
  { raw_text := text
    datetime := pd text
    title := extractTitle text
    duration := extract_duration text
    reminder_before := rb text }

/-! ### Python values, truthiness and dictionaries -/

/-- Python values flowing through entity dictionaries, tool parameters and
tool results: `None`, strings, ints, datetimes (seconds), timedeltas
(seconds), lists and dicts. -/
inductive PyVal where
  | vnone
  | vstr (s : String)
  | vint (n : Int)
  | vtime (t : Int)
  | vdur (d : Int)
  | vlist (xs : List PyVal)
  | vdict (es : List (String × PyVal))

/-- Python truthiness: `None`, `""`, `0`, `timedelta(0)` and empty containers
are falsy; datetime objects are always truthy. -/
def pyTruthy : PyVal → Bool
  | .vnone => false
  | .vstr s => !(s == "")
  | .vint n => !(n == 0)
  | .vtime _ => true
  | .vdur d => !(d == 0)
  | .vlist xs => !xs.isEmpty
  | .vdict es => !es.isEmpty

/-- Python `str()` as used in f-strings and template substitution.  Exact for
`None`, strings and ints (the only values the claims exercise); non-scalar
values get an opaque rendering. -/
def pyStr : PyVal → String
  | .vnone => "None"
  | .vstr s => s
  | .vint n => toString n
  | .vtime t => "<datetime " ++ toString t ++ ">"
  | .vdur d => "<timedelta " ++ toString d ++ ">"
  | .vlist _ => "<list>"
  | .vdict _ => "<dict>"

/-- Python `a or b` over values (truthiness-based). -/
def pyOr (a b : PyVal) : PyVal := if pyTruthy a then a else b

/-- Dict membership-aware lookup (`k in d` / `d[k]`): first matching key. -/
def dictGet? (d : List (String × PyVal)) (k : String) : Option PyVal :=
  match d with
  | [] => none
  | (k0, v) :: rest => if k0 = k then some v else dictGet? rest k

/-- Python `d.get(k)`: `None` default. -/
def dictGet (d : List (String × PyVal)) (k : String) : PyVal :=
  (dictGet? d k).getD .vnone

/-- Python `d.get(k, dflt)`. -/
def dictGetD (d : List (String × PyVal)) (k : String) (dflt : PyVal) : PyVal :=
  (dictGet? d k).getD dflt

/-- Python `d[k] = v`: replace in place, else append. -/
def dictSet : List (String × PyVal) → String → PyVal → List (String × PyVal)
  | [], k, v => [(k, v)]
  | (k0, v0) :: rest, k, v =>
    if k0 = k then (k, v) :: rest else (k0, v0) :: dictSet rest k v

/-- Python `d.update(src)`. -/
def dictUpdate (d src : List (String × PyVal)) : List (String × PyVal) :=
  src.foldl (fun acc kv => dictSet acc kv.1 kv.2) d

/-! ### The explicit relative-time patterns of `AgentPlanner.analyze_message`
(src/agent/planner.py lines 89-99) -/

/-- The unit alternation `(minute|min|hour|hr|day)` of the relative
patterns. -/
def relUnits : List (List Char) :=
  ["minute".data, "min".data, "hour".data, "hr".data, "day".data]

/-- Match one unit alternative, its optional plural `s?` (with backtracking),
then the continuation. -/
def unitThen (cont : List Char → Bool) (l : List Char) : Bool :=
  relUnits.any fun u =>
    if u.isPrefixOf l then
      let rest := l.drop u.length
      match rest with
      | 's' :: r2 => cont r2 || cont rest
      | _ => cont rest
    else false

/-- Pattern 1, `\bin\s+(\d+)\s+(minute|min|hour|hr|day)s?`, attempted at one
position; `prevOk` says the preceding character satisfies the `\b`
boundary. -/
def relPat1At (prevOk : Bool) (l : List Char) : Bool :=
  prevOk &&
    (match l with
     | 'i' :: 'n' :: rest =>
       (match spaces1 rest with
        | some l1 =>
          (match digits1 l1 with
           | some l2 =>
             (match spaces1 l2 with
              | some l3 => relUnits.any (fun u => u.isPrefixOf l3)
              | none => false)
           | none => false)
        | none => false)
     | _ => false)

/-- Search pattern 1 at every position, threading the word-boundary state. -/
def relPat1Search : Bool → List Char → Bool
  | _, [] => false
  | prevOk, c :: rest =>
    relPat1At prevOk (c :: rest) || relPat1Search (!isWordChar c) rest

/-- Pattern 2, `(\d+)\s+(minute|min|hour|hr|day)s?\s+from\s+now`, attempted
at one position. -/
def relPat2At (l : List Char) : Bool :=
  match digits1 l with
  | none => false
  | some l1 =>
    match spaces1 l1 with
    | none => false
    | some l2 =>
      unitThen
        (fun r =>
          match spaces1 r with
          | none => false
          | some r1 =>
            if ("from".data).isPrefixOf r1 then
              match spaces1 (r1.drop 4) with
              | none => false
              | some r2 => ("now".data).isPrefixOf r2
            else false)
        l2

/-- Pattern 3, `after\s+(\d+)\s+(minute|min|hour|hr|day)s?`, attempted at one
position. -/
def relPat3At (l : List Char) : Bool :=
  if ("after".data).isPrefixOf l then
    match spaces1 (l.drop 5) with
    | none => false
    | some l1 =>
      match digits1 l1 with
      | none => false
      | some l2 =>
        match spaces1 l2 with
        | none => false
        | some l3 => relUnits.any (fun u => u.isPrefixOf l3)
  else false

/-- Generic positional search for a boundary-free pattern. -/
def anyPosition (p : List Char → Bool) : List Char → Bool
  | [] => p []
  | c :: rest => p (c :: rest) || anyPosition p rest

/-- The `relative_patterns` loop of `analyze_message`: does any of the three
explicit relative patterns match the lower-cased message? -/
def matchesRelativePattern (msg : String) : Bool :=
  let l := lowerList msg.data
  relPat1Search true l || anyPosition relPat2At l || anyPosition relPat3At l

/-! ### The relative-time reconciliation of `analyze_message`
(src/agent/planner.py lines 87-124) -/

/-- The `is_relative` flag computed by `analyze_message` when a (truthy)
duration is present: an explicit relative pattern matched, or no datetime was
extracted, or the extracted datetime lies in the past. -/
def isRelativeFor (msg : String) (dtOpt : Option Int) (now : Int) : Bool :=
  matchesRelativePattern msg ||
    (match dtOpt with
     | some t => decide (t < now)
     | none => true)

/-- The rule-based entity phase of `AgentPlanner.analyze_message`: extract
entities, then recompute the datetime as `now + duration` when the duration
is truthy (Python: `if nlp_entities.get('duration')`, falsy for
`timedelta(0)`) and `is_relative` holds. -/
def analyze_entities (pd rb : String → Option Int) (now : Int) (msg : String) : EventInfo :=
  let info := extract_event_info pd rb msg
  match info.duration with
  | none => info
  | some d =>
    if d = 0 then info
    else if isRelativeFor msg info.datetime now then
      { info with datetime := some (now + d) }
    else info

def optStrVal : Option String → PyVal
  | none => .vnone
  | some s => .vstr s

def optTimeVal : Option Int → PyVal
  | none => .vnone
  | some t => .vtime t

def optDurVal : Option Int → PyVal
  | none => .vnone
  | some d => .vdur d

/-- The `info` dict built by `extract_event_info`, in source key order. -/
def eventInfoDict (i : EventInfo) : List (String × PyVal) :=
  [("raw_text", .vstr i.raw_text),
   ("datetime", optTimeVal i.datetime),
   ("title", optStrVal i.title),
   ("duration", optDurVal i.duration),
   ("reminder_before", optDurVal i.reminder_before)]

/-- Truthiness of the original `nlp_entities.get('duration')`. -/
def durTruthy : Option Int → Bool
  | none => false
  | some d => !(d == 0)

/-- The LLM entity-merge loop of `analyze_message` (src/agent/planner.py
lines 134-140): skip the datetime key when the rule-based duration is truthy,
merge every other non-`None` value. -/
def mergeLlmEntities (nlpDuration : Option Int)
    (entities llm : List (String × PyVal)) : List (String × PyVal) :=
  llm.foldl
    (fun acc kv =>
      if kv.1 == "datetime" && durTruthy nlpDuration then acc
      else
        match kv.2 with
        | .vnone => acc
        | _ => dictSet acc kv.1 kv.2)
    entities

/-- Embedding of `AgentPlanner.analyze_message`.  The LLM pass
`_llm_extract_entities` is external (network + JSON parsing + its own
post-processing); its already-post-processed result dict is the parameter
`llm` (`[]` models the exception fallback).  `enableClarify` is
`settings.enable_clarifying_questions`. -/
def analyze_message (pd rb : String → Option Int) (enableClarify : Bool)
    (llm : List (String × PyVal)) (now : Int) (msg : String) :
    String × List (String × PyVal) :=
  let intent := extract_intent msg
  let info := analyze_entities pd rb now msg
  let entities := eventInfoDict info
  let entities :=
    if enableClarify then mergeLlmEntities info.duration entities llm else entities
  (intent, entities)

/-! ### Plan construction (src/agent/planner.py lines 224-623) -/

structure Step where
  step : Nat
  action : String
  tool : String
  parameters : List (String × PyVal)

structure Plan where
  steps : List Step
  requires_clarification : Bool
  clarifying_questions : List String

/-- Embedding of `AgentPlanner._check_missing_info`; `not entities.get(k)` is
Python truthiness (absent, `None` and `""` all count as missing). -/
def check_missing_info (intent : String) (entities : List (String × PyVal)) : List String :=
  if intent = "create_event" then
    (if pyTruthy (dictGet entities "title") then [] else ["title"]) ++
      (if pyTruthy (dictGet entities "datetime") then [] else ["datetime"])
  else if intent = "create_reminder" then
    (if pyTruthy (dictGet entities "title") then [] else ["title"]) ++
      (if pyTruthy (dictGet entities "datetime") then [] else ["datetime"])
  else if intent = "create_task" then
    (if pyTruthy (dictGet entities "title") then [] else ["title"])
  else if intent = "create_note" then
    (if !pyTruthy (dictGet entities "title") && !pyTruthy (dictGet entities "description")
     then ["content"] else [])
  else []

/-- The fixed `question_map` of `_generate_clarifying_questions`. -/
def question_map (field : String) : Option String :=
  if field = "title" then some "What would you like to call this?"
  else if field = "datetime" then some "When should this be?"
  else if field = "duration" then some "How long will it last?"
  else if field = "location" then some "Where will this take place?"
  else if field = "reminder_before" then some "How long before should I remind you?"
  else if field = "content" then some "What would you like to save?"
  else none

/-- Embedding of `AgentPlanner._generate_clarifying_questions`: one question
per mapped missing field, unmapped fields silently skipped. -/
def generate_clarifying_questions (_intent : String) (missing : List String) : List String :=
  missing.filterMap question_map

/-- The library regex searches used only by the browser/file plan branches
(URL pattern `https?://[^\s]+` returning group 0, the bare-domain pattern
returning group 1, and the file-link pattern `(?:link\s+(?:for|of)\s+)(.+)`
returning the stripped group 1).  No claim depends on them, so they are
abstracted as parameters; the surrounding branch logic is embedded
concretely. -/
structure RegexHelpers where
  urlSearch : String → Option String
  domainSearch : String → Option String
  linkNameSearch : String → Option String

/-- The literal placeholder token written into browser steps. -/
def sessionPlaceholder : String := "$\x7bsession_id\x7d"

/-- Python `entities.get("raw_text", "")` (the value is always a string in
the pipeline). -/
def rawTextOf (entities : List (String × PyVal)) : String :=
  match dictGet? entities "raw_text" with
  | some (.vstr s) => s
  | _ => ""

def screenshotKeywords : List String :=
  ["screenshot", "capture", "snap", "take a picture", "snap a photo"]

def strStartsWith (s p : String) : Bool := p.data.isPrefixOf s.data

/-- URL extraction shared by the browser_navigation / browser_extract
branches: full URL first, else bare domain with `https://` prefixed. -/
def urlOrDomain (rh : RegexHelpers) (raw : String) : Option String :=
  match rh.urlSearch raw with
  | some u => some u
  | none =>
    match rh.domainSearch raw with
    | some dmn => if strStartsWith dmn "http" then some dmn else some ("https://" ++ dmn)
    | none => none

/-- Embedding of `AgentPlanner._create_execution_steps`: the full intent
switch, one branch per supported intent, empty for unmatched intents. -/
def create_execution_steps (rh : RegexHelpers) (intent : String)
    (entities : List (String × PyVal)) : List Step :=
  if intent = "create_event" then
    let step1 : Step :=
      { step := 1, action := "create_event", tool := "CalendarMCP",
        parameters := [("action", .vstr "create_event"),
                       ("title", dictGet entities "title"),
                       ("start_time", dictGet entities "datetime"),
                       ("description", dictGet entities "description"),
                       ("location", dictGet entities "location")] }
    if pyTruthy (dictGet entities "reminder_before") then
      [step1,
       { step := 2, action := "create_reminder", tool := "ReminderMCP",
         parameters := [("action", .vstr "create"),
                        ("title", .vstr ("Reminder: " ++ pyStr (dictGet entities "title"))),
                        ("remind_at", dictGet entities "datetime")] }]
    else [step1]
  else if intent = "create_reminder" then
    [{ step := 1, action := "create_reminder", tool := "ReminderMCP",
       parameters := [("action", .vstr "create"),
                      ("title", dictGet entities "title"),
                      ("remind_at", dictGet entities "datetime"),
                      ("description", dictGet entities "description")] }]
  else if intent = "query_events" then
    [{ step := 1, action := "list_events", tool := "CalendarMCP",
       parameters := [("action", .vstr "list_events")] }]
  else if intent = "file_upload" then
    [{ step := 1, action := "upload", tool := "FileStorageMCP",
       parameters := [("action", .vstr "upload"),
                      ("file_path", dictGet entities "file_path"),
                      ("file_name",
                        pyOr (dictGet entities "file_name") (dictGet entities "title"))] }]
  else if intent = "file_list" then
    [{ step := 1, action := "list", tool := "FileStorageMCP",
       parameters := [("action", .vstr "list")] }]
  else if intent = "file_link" then
    let fn0 := pyOr (dictGet entities "title") (dictGet entities "file_name")
    let fn :=
      if pyTruthy fn0 then fn0
      else
        match rh.linkNameSearch (rawTextOf entities) with
        | some s => .vstr s
        | none => fn0
    [{ step := 1, action := "get_link", tool := "FileStorageMCP",
       parameters := [("action", .vstr "get_link"),
                      ("file_id", dictGet entities "file_id"),
                      ("file_name", fn)] }]
  else if intent = "file_share" then
    [{ step := 1, action := "share", tool := "FileStorageMCP",
       parameters := [("action", .vstr "share"),
                      ("file_id", dictGet entities "file_id"),
                      ("share_with", dictGet entities "share_with"),
                      ("access_level", dictGetD entities "access_level" (.vstr "viewer"))] }]
  else if intent = "query_reminders" then
    [{ step := 1, action := "list_reminders", tool := "ReminderMCP",
       parameters := [("action", .vstr "list")] }]
  else if intent = "browser_navigation" then
    let raw := rawTextOf entities
    let url := urlOrDomain rh raw
    let s1 : Step :=
      { step := 1, action := "create_session", tool := "BrowserbaseMCP",
        parameters := [("action", .vstr "create_session")] }
    let navSteps : List Step :=
      match url with
      | some u =>
        [{ step := 2, action := "navigate", tool := "BrowserbaseMCP",
           parameters := [("action", .vstr "navigate"),
                          ("session_id", .vstr sessionPlaceholder),
                          ("url", .vstr u)] }]
      | none => []
    let stepNum := if url.isSome then 3 else 2
    let shotSteps : List Step :=
      if screenshotKeywords.any
          (fun kw => strContains (String.mk (lowerList raw.data)) kw) then
        [{ step := stepNum, action := "screenshot", tool := "BrowserbaseMCP",
           parameters := [("action", .vstr "screenshot"),
                          ("session_id", .vstr sessionPlaceholder)] }]
      else []
    s1 :: navSteps ++ shotSteps
  else if intent = "browser_screenshot" then
    let raw := rawTextOf entities
    let s1 : Step :=
      { step := 1, action := "create_session", tool := "BrowserbaseMCP",
        parameters := [("action", .vstr "create_session")] }
    match rh.urlSearch raw with
    | some u =>
      [s1,
       { step := 2, action := "navigate", tool := "BrowserbaseMCP",
         parameters := [("action", .vstr "navigate"),
                        ("session_id", .vstr sessionPlaceholder),
                        ("url", .vstr u)] },
       { step := 3, action := "screenshot", tool := "BrowserbaseMCP",
         parameters := [("action", .vstr "screenshot"),
                        ("session_id", .vstr sessionPlaceholder)] }]
    | none =>
      [s1,
       { step := 2, action := "screenshot", tool := "BrowserbaseMCP",
         parameters := [("action", .vstr "screenshot"),
                        ("session_id", .vstr sessionPlaceholder)] }]
  else if intent = "browser_extract" then
    let raw := rawTextOf entities
    let url := urlOrDomain rh raw
    let s1 : Step :=
      { step := 1, action := "create_session", tool := "BrowserbaseMCP",
        parameters := [("action", .vstr "create_session")] }
    let navSteps : List Step :=
      match url with
      | some u =>
        [{ step := 2, action := "navigate", tool := "BrowserbaseMCP",
           parameters := [("action", .vstr "navigate"),
                          ("session_id", .vstr sessionPlaceholder),
                          ("url", .vstr u)] }]
      | none => []
    s1 :: navSteps ++
      [{ step := if url.isSome then 3 else 2, action := "extract", tool := "BrowserbaseMCP",
         parameters := [("action", .vstr "extract"),
                        ("session_id", .vstr sessionPlaceholder),
                        ("instruction", .vstr raw),
                        ("data_format", .vstr "json")] }]
  else if intent = "browser_interaction" then
    let raw := String.mk (lowerList (rawTextOf entities).data)
    let actionType :=
      if strContains raw "type" || strContains raw "enter" then "type"
      else if strContains raw "scroll" then "scroll"
      else if strContains raw "click" || strContains raw "submit" then "click"
      else "click"
    [{ step := 1, action := "create_session", tool := "BrowserbaseMCP",
       parameters := [("action", .vstr "create_session")] },
     { step := 2, action := "act", tool := "BrowserbaseMCP",
       parameters := [("action", .vstr "act"),
                      ("session_id", .vstr sessionPlaceholder),
                      ("action_type", .vstr actionType),
                      ("instruction", .vstr (rawTextOf entities))] }]
  else []

/-- Embedding of `AgentPlanner.create_plan`; `enableClarify` is
`settings.enable_clarifying_questions`. -/
def create_plan (rh : RegexHelpers) (enableClarify : Bool) (intent : String)
    (entities : List (String × PyVal)) : Plan :=
  let missing := check_missing_info intent entities
  if !missing.isEmpty && enableClarify then
    { steps := [], requires_clarification := true,
      clarifying_questions := generate_clarifying_questions intent missing }
  else
    { steps := create_execution_steps rh intent entities,
      requires_clarification := false, clarifying_questions := [] }

/-- Trivial regex helpers (no URL / domain / link-name anywhere). -/
def rhTrivial : RegexHelpers :=
  { urlSearch := fun _ => none, domainSearch := fun _ => none,
    linkNameSearch := fun _ => none }

/-- External datetime parser returning nothing (no time information). -/
def pdNone : String → Option Int := fun _ => none

/-- External reminder-before extraction returning nothing. -/
def rbNone : String → Option Int := fun _ => none

/-! ### Tool contract: `BaseMCP.execute_with_retry` (src/mcps/base.py lines 106-146) -/

/-- Execution status of a tool result; `partway` models the source's PARTIAL
value. -/
inductive MCPStatus where
  | success
  | failure
  | partway
deriving Repr, DecidableEq

/-- The uniform `MCPOutput` result shape. -/
structure MCPOutput where
  status : MCPStatus
  data : PyVal
  message : String
  error : Option String
  metadata : List (String × PyVal)

/-- Outcome of one `execute` attempt: a raised exception (message) or a
returned result.  A tool behaviour is a function from the 0-based attempt
index to an outcome, modelling a stateful/asynchronous backend. -/
inductive AttemptOutcome where
  | raises (msg : String)
  | returns (r : MCPOutput)

/-- Did this attempt return a success-status result? -/
def isSuccessA : AttemptOutcome → Bool
  | .raises _ => false
  | .returns r =>
    match r.status with
    | .success => true
    | _ => false

/-- The error observed from a non-success attempt (`str(e)` for an exception,
the result's error field otherwise), as captured in `last_error`. -/
def observedError : AttemptOutcome → Option String
  | .raises m => some m
  | .returns r => r.error

/-- The retry loop of `execute_with_retry`: `k` attempts already made,
`remaining` attempts left, `lastError` the running `last_error`.  Returns the
result together with the total number of attempts made. -/
def retryGo (tool : Nat → AttemptOutcome) (maxRetries : Nat) :
    Nat → Nat → Option String → MCPOutput × Nat
  | k, 0, lastError =>
    ({ status := .failure, data := .vnone,
       message := "Failed after " ++ toString maxRetries ++ " attempts",
       error := lastError, metadata := [] }, k)
  | k, remaining + 1, _lastError =>
    match tool k with
    | .returns res =>
      match res.status with
      | .success => (res, k + 1)
      | _ => retryGo tool maxRetries (k + 1) remaining res.error
    | .raises msg => retryGo tool maxRetries (k + 1) remaining (some msg)

/-- Embedding of `BaseMCP.execute_with_retry`. -/
def execute_with_retry (tool : Nat → AttemptOutcome) (maxRetries : Nat) :
    MCPOutput × Nat :=
  retryGo tool maxRetries 0 maxRetries none

/-! ### `MCPRegistry.get` (src/mcps/registry.py lines 55-65) -/

/-- A registered tool: its `execute` behaviour, taking the constructed input
(the resolved parameter mapping) and the attempt index. -/
structure MCP where
  execute : List (String × PyVal) → Nat → AttemptOutcome

/-- Registry lookup, as `self._mcps.get(name)`. -/
def registryGet (reg : List (String × MCP)) (name : String) : Option MCP :=
  (reg.find? (fun p => p.1 = name)).map (fun p => p.2)

/-! ### Placeholder substitution in `AgentExecutor._execute_step`
(src/agent/executor.py lines 162-176) -/

/-- The replacement produced for one matched `${name}` token:
`str(context.get(name))` when the name is bound, the literal token itself
otherwise (`re.sub`'s `match.group(0)` default). -/
def replName (ctx : List (String × PyVal)) (name : List Char) : List Char :=
  match dictGet? ctx (String.mk name) with
  | some v => (pyStr v).data
  | none => '$' :: '{' :: (name ++ ['}'])

/-- One scan step of `re.sub` with pattern `\$\{(\w+)\}`: at the current
position, either match a full `${name}` token (`\w+` greedy, so the name is
the maximal word-character run, which must be non-empty and followed by `}`)
and emit its replacement, or emit the current character and move one
position right. Returns (emitted output, remaining input). -/
def substStep (ctx : List (String × PyVal)) (l : List Char) : List Char × List Char :=
  match l with
  | [] => ([], [])
  | c :: rest =>
    if c = '$' then
      match rest with
      | c2 :: rest2 =>
        if c2 = '{' then
          let name := rest2.takeWhile isWordChar
          if name.isEmpty then ([c], rest)
          else
            match rest2.drop name.length with
            | c3 :: rest3 =>
              if c3 = '}' then (replName ctx name, rest3) else ([c], rest)
            | [] => ([c], rest)
        else ([c], rest)
      | [] => ([c], rest)
    else ([c], rest)

/-- The full left-to-right `re.sub` scan; `fuel` bounds the recursion (each
step consumes at least one character, so the input length suffices). -/
def substGo (ctx : List (String × PyVal)) : Nat → List Char → List Char
  | 0, l => l
  | _ + 1, [] => []
  | fuel + 1, c :: rest =>
    (substStep ctx (c :: rest)).1 ++ substGo ctx fuel (substStep ctx (c :: rest)).2

/-- Template substitution applied to one string parameter value. -/
def substituteTemplates (ctx : List (String × PyVal)) (s : String) : String :=
  String.mk (substGo ctx s.data.length s.data)

/-- Python `"${" in value`. -/
def containsTemplate (s : String) : Bool := containsSub ['$', '{'] s.data

/-- The parameter-resolution loop of `_execute_step`: substitute into string
values containing a placeholder opener, leave everything else alone. -/
def resolveParams (ctx : List (String × PyVal))
    (params : List (String × PyVal)) : List (String × PyVal) :=
  params.map fun kv =>
    match kv.2 with
    | .vstr s =>
      if containsTemplate s then (kv.1, .vstr (substituteTemplates ctx s))
      else (kv.1, .vstr s)
    | v => (kv.1, v)

/-! ### `AgentExecutor._execute_step` and `execute_plan`
(src/agent/executor.py lines 78-233) -/

/-- Result of dispatching one step: a returned `MCPOutput`, or an exception
escaping `_execute_step` (e.g. pydantic input validation). -/
inductive StepResult where
  | ok (r : MCPOutput)
  | exn (e : String)

/-- The tool names special-cased by `_execute_step`'s input-construction
switch. -/
def knownTools : List String :=
  ["CalendarMCP", "ReminderMCP", "BraveSearchMCP", "BrowserbaseMCP"]

/-- Typed-input construction (the pydantic `XxxInput(**parameters)` call),
which may raise; abstracted as a parameter since no claim depends on
pydantic's validation rules. -/
abbrev BuildInput := String → List (String × PyVal) → Except String (List (String × PyVal))

/-- Embedding of `AgentExecutor._execute_step`: resolve placeholders, look
the tool up (failure result with error "Tool not registered" when absent),
construct the typed input, and run `execute_with_retry` with the fixed
`max_retries=2`. -/
def executeStep (reg : List (String × MCP)) (bi : BuildInput)
    (ctx : List (String × PyVal)) (st : Step) : StepResult :=
  let params := resolveParams ctx st.parameters
  match registryGet reg st.tool with
  | none =>
    .ok { status := .failure, data := .vnone,
          message := "Tool " ++ st.tool ++ " not found",
          error := some "Tool not registered", metadata := [] }
  | some mcp =>
    if knownTools.contains st.tool then
      match bi st.tool params with
      | .error e => .exn e
      | .ok input => .ok (execute_with_retry (mcp.execute input) 2).1
    else
      .ok { status := .failure, data := .vnone,
            message := "Unknown tool: " ++ st.tool,
            error := some "Unknown tool", metadata := [] }

/-- The context merge performed by `execute_plan` after a success result:
top-level `session_id` in the data dict, then the nested `"data"` sub-dict's
keys, then `session_id` from the metadata (metadata written last, hence
taking precedence). -/
def contextAfter (ctx : List (String × PyVal)) (out : MCPOutput) :
    List (String × PyVal) :=
  let ctx1 :=
    match out.data with
    | .vdict es =>
      if es.isEmpty then ctx
      else
        let c1 :=
          match dictGet? es "session_id" with
          | some v => dictSet ctx "session_id" v
          | none => ctx
        match dictGet? es "data" with
        | some (.vdict inner) => dictUpdate c1 inner
        | _ => c1
    | _ => ctx
  match out.metadata with
  | [] => ctx1
  | _ :: _ =>
    match dictGet? out.metadata "session_id" with
    | some v => dictSet ctx1 "session_id" v
    | none => ctx1

/-- Python `str()` of the `Optional[str]` error field in the f-string
`f"Step ... failed: {result.error}"`. -/
def pyFormatOptStr : Option String → String
  | none => "None"
  | some s => s

/-- The per-step body of `execute_plan`'s loop, folding
(results, errors, context). -/
def stepFold (reg : List (String × MCP)) (bi : BuildInput)
    (acc : List MCPOutput × List String × List (String × PyVal)) (st : Step) :
    List MCPOutput × List String × List (String × PyVal) :=
  match executeStep reg bi acc.2.2 st with
  | .exn e =>
    (acc.1, acc.2.1 ++ ["Step " ++ toString st.step ++ " error: " ++ e], acc.2.2)
  | .ok result =>
    let results := acc.1 ++ [result]
    let ctx :=
      if result.status = .success then contextAfter acc.2.2 result else acc.2.2
    let errors :=
      if result.status = .failure then
        acc.2.1 ++
          ["Step " ++ toString st.step ++ " failed: " ++ pyFormatOptStr result.error]
      else acc.2.1
    (results, errors, ctx)

/-- Embedding of `AgentExecutor._create_summary_message`. -/
def create_summary_message (results : List MCPOutput) (errors : List String) : String :=
  if !errors.isEmpty then
    "❌ Completed with errors:\n" ++
      String.intercalate "\n" (errors.map (fun e => "- " ++ e))
  else if results.isEmpty then "No actions were taken."
  else
    String.intercalate "\n"
      (results.map fun r =>
        if r.status = .success then "✅ " ++ r.message else "⚠️ " ++ r.message)

/-- The aggregate `ExecutionResult`. -/
structure ExecutionResult where
  success : Bool
  message : String
  data : List (String × PyVal)
  errors : List String

/-- Embedding of `AgentExecutor.execute_plan`: clarification short-circuit,
then the sequential step loop threading (results, errors, context), then
aggregation with `success = no errors`. -/
def execute_plan (reg : List (String × MCP)) (bi : BuildInput) (plan : Plan) :
    ExecutionResult :=
  if plan.requires_clarification then
    { success := false, message := "Need more information",
      data := [("clarifying_questions", .vlist (plan.clarifying_questions.map PyVal.vstr))],
      errors := [] }
  else
    let res := plan.steps.foldl (stepFold reg bi) ([], [], [])
    { success := res.2.1.isEmpty,
      message := create_summary_message res.1 res.2.1,
      data := [("results", .vlist (res.1.map MCPOutput.data))],
      errors := res.2.1 }

/-! ### `TemporalMemory.mark_reminder_sent` (src/memory/temporal.py lines 55-72) -/

structure Reminder where
  id : Int
  is_sent : Bool
  sent_at : Option Int
  status : String
deriving Repr, DecidableEq

/-- Embedding of `TemporalMemory.mark_reminder_sent`: fetch the row with the
given id and, if present, set `is_sent`, stamp `sent_at := now` and set
status "sent".  The single-row fetch-and-mutate is modelled as a row-wise
conditional update (ids are primary keys, hence unique). -/
def mark_reminder_sent (db : List Reminder) (rid : Int) (now : Int) : List Reminder :=
  db.map fun r =>
    if r.id = rid then { r with is_sent := true, sent_at := some now, status := "sent" }
    else r

/-! ### Concrete objects used by the scenario claims and witnesses -/

/-- The success output of a create-session step, carrying the session id in
its metadata. -/
def okSession : MCPOutput :=
  { status := .success, data := .vnone, message := "Browser session created",
    error := none, metadata := [("session_id", .vstr "abc")] }

/-- A browser tool that returns the session output for create_session and
otherwise echoes its (resolved) input parameters in its result data. -/
def echoMCP : MCP :=
  { execute := fun ps _ =>
      match dictGet? ps "action" with
      | some (.vstr a) =>
        if a = "create_session" then .returns okSession
        else
          .returns { status := .success, data := .vdict ps, message := "navigated",
                     error := none, metadata := [] }
      | _ =>
        .returns { status := .success, data := .vdict ps, message := "navigated",
                   error := none, metadata := [] } }

def demoRegistry : List (String × MCP) := [("BrowserbaseMCP", echoMCP)]

def demoBuild : BuildInput := fun _ ps => .ok ps

/-- A two-step plan: create a session, then navigate with a `session_id`
placeholder parameter. -/
def demoPlan : Plan :=
  { steps :=
      [{ step := 1, action := "create_session", tool := "BrowserbaseMCP",
         parameters := [("action", .vstr "create_session")] },
       { step := 2, action := "navigate", tool := "BrowserbaseMCP",
         parameters := [("action", .vstr "navigate"),
                        ("session_id", .vstr sessionPlaceholder),
                        ("url", .vstr "https://example.com")] }],
    requires_clarification := false,
    clarifying_questions := [] }

/-- A tool that raises on its first attempt and succeeds on its second. -/
def okOut : MCPOutput :=
  { status := .success, data := .vnone, message := "ok", error := none, metadata := [] }

def toolSecondTry : Nat → AttemptOutcome
  | 0 => .raises "boom"
  | _ + 1 => .returns okOut

/-- A tool that always raises. -/
def toolAlwaysRaises : Nat → AttemptOutcome := fun _ => .raises "down"

/-- A step naming a known but unregistered tool. -/
def demoStep : Step :=
  { step := 1, action := "create_event", tool := "CalendarMCP", parameters := [] }

/-- The value of `last_error` after running `rem` further attempts starting
at index `k` with current value `le`, assuming none of them succeeds: the
error observed at the last attempt, or `le` if there are none. -/
def lastErrAfter (tool : Nat → AttemptOutcome) (k rem : Nat) (le : Option String) :
    Option String :=
  match rem with
  | 0 => le
  | r + 1 => observedError (tool (k + r))

/-! ## Helper lemmas about the retry loop -/

theorem retryGo_le (tool : Nat → AttemptOutcome) (N : Nat) :
    ∀ rem k le, (retryGo tool N k rem le).2 ≤ k + rem := by
  intro rem
  induction rem with
  | zero => intro k le; simp [retryGo]
  | succ r ih =>
    intro k le
    rw [retryGo]
    cases h : tool k with
    | returns res =>
      dsimp only
      cases hs : res.status with
      | success => dsimp only; simp
      | failure =>
        dsimp only
        have := ih (k + 1) res.error; omega
      | partway =>
        dsimp only
        have := ih (k + 1) res.error; omega
    | raises msg =>
      dsimp only
      have := ih (k + 1) (some msg); omega

theorem retryGo_success (tool : Nat → AttemptOutcome) (N : Nat) :
    ∀ j rem k le r, j < rem →
      (∀ i, i < j → isSuccessA (tool (k + i)) = false) →
      tool (k + j) = .returns r → r.status = .success →
      retryGo tool N k rem le = (r, k + j + 1) := by
  intro j
  induction j with
  | zero =>
    intro rem k le r hj hbefore hret hst
    match rem, hj with
    | rm + 1, _ =>
      rw [retryGo]
      rw [Nat.add_zero] at hret
      rw [hret]
      dsimp only
      rw [hst]
  | succ j0 ih =>
    intro rem k le r hj hbefore hret hst
    match rem, hj with
    | rm + 1, _ =>
      have h0 : isSuccessA (tool k) = false := by
        simpa using hbefore 0 (Nat.succ_pos j0)
      have harith : k + 1 + j0 = k + (j0 + 1) := by omega
      have hbefore' : ∀ i, i < j0 → isSuccessA (tool (k + 1 + i)) = false := by
        intro i hi
        have := hbefore (i + 1) (by omega)
        have e : k + (i + 1) = k + 1 + i := by omega
        rwa [e] at this
      have hret' : tool (k + 1 + j0) = .returns r := by rw [harith]; exact hret
      have harr : k + (j0 + 1) + 1 = k + 1 + j0 + 1 := by omega
      rw [retryGo]
      cases htk : tool k with
      | returns res =>
        dsimp only
        cases hsres : res.status with
        | success =>
          rw [htk] at h0
          simp [isSuccessA, hsres] at h0
        | failure =>
          dsimp only
          rw [harr]
          exact ih rm (k + 1) res.error r (by omega) hbefore' hret' hst
        | partway =>
          dsimp only
          rw [harr]
          exact ih rm (k + 1) res.error r (by omega) hbefore' hret' hst
      | raises msg =>
        dsimp only
        rw [harr]
        exact ih rm (k + 1) (some msg) r (by omega) hbefore' hret' hst

theorem retryGo_allfail (tool : Nat → AttemptOutcome) (N : Nat) :
    ∀ rem k le, (∀ i, i < rem → isSuccessA (tool (k + i)) = false) →
      retryGo tool N k rem le =
        ({ status := .failure, data := .vnone,
           message := "Failed after " ++ toString N ++ " attempts",
           error := lastErrAfter tool k rem le, metadata := [] }, k + rem) := by
  intro rem
  induction rem with
  | zero => intro k le _; rfl
  | succ rm ih =>
    intro k le hfail
    have h0 : isSuccessA (tool k) = false := by
      simpa using hfail 0 (Nat.succ_pos rm)
    have htail : ∀ i, i < rm → isSuccessA (tool (k + 1 + i)) = false := by
      intro i hi
      have := hfail (i + 1) (by omega)
      have e : k + (i + 1) = k + 1 + i := by omega
      rwa [e] at this
    have hcount : k + (rm + 1) = k + 1 + rm := by omega
    rw [retryGo]
    cases htk : tool k with
    | returns res =>
      dsimp only
      cases hsres : res.status with
      | success =>
        rw [htk] at h0
        simp [isSuccessA, hsres] at h0
      | failure =>
        dsimp only
        have he : lastErrAfter tool k (rm + 1) le
            = lastErrAfter tool (k + 1) rm res.error := by
          cases rm with
          | zero => simp [lastErrAfter, htk, observedError]
          | succ rm0 =>
            simp only [lastErrAfter]
            congr 2
            omega
        rw [he, hcount]
        exact ih (k + 1) res.error htail
      | partway =>
        dsimp only
        have he : lastErrAfter tool k (rm + 1) le
            = lastErrAfter tool (k + 1) rm res.error := by
          cases rm with
          | zero => simp [lastErrAfter, htk, observedError]
          | succ rm0 =>
            simp only [lastErrAfter]
            congr 2
            omega
        rw [he, hcount]
        exact ih (k + 1) res.error htail
    | raises msg =>
      dsimp only
      have he : lastErrAfter tool k (rm + 1) le
          = lastErrAfter tool (k + 1) rm (some msg) := by
        cases rm with
        | zero => simp [lastErrAfter, htk, observedError]
        | succ rm0 =>
          simp only [lastErrAfter]
          congr 2
          omega
      rw [he, hcount]
      exact ih (k + 1) (some msg) htail

/-! ## Claim theorems -/

/-- C2.  `execute_with_retry` makes at most `N` attempts; the first
success-status attempt's exact result is returned immediately (after exactly
`k + 1` attempts when the 0-based index of the first success is `k`); a
raised exception is captured as the last error and the loop continues; and
when no attempt succeeds the synthesized result has failure status, its
message states the total attempt count `N`, and its error field is the error
observed at the last attempt. -/
theorem execute_with_retry_contract (tool : Nat → AttemptOutcome) (N : Nat) :
    (execute_with_retry tool N).2 ≤ N ∧
    (∀ k r, k < N → (∀ i, i < k → isSuccessA (tool i) = false) →
      tool k = .returns r → r.status = .success →
      execute_with_retry tool N = (r, k + 1)) ∧
    ((∀ i, i < N → isSuccessA (tool i) = false) →
      (execute_with_retry tool N).1.status = .failure ∧
      (execute_with_retry tool N).2 = N ∧
      (execute_with_retry tool N).1.message
        = "Failed after " ++ toString N ++ " attempts" ∧
      (∀ m, N = m + 1 → (execute_with_retry tool N).1.error = observedError (tool m))) ∧
    (∀ k rem le msg, tool k = .raises msg →
      retryGo tool N k (rem + 1) le = retryGo tool N (k + 1) rem (some msg)) := by
  refine ⟨?_, ?_, ?_, ?_⟩
  · simpa using retryGo_le tool N N 0 none
  · intro k r hk hbefore hret hst
    have := retryGo_success tool N k N 0 none r hk
      (by intro i hi; simpa using hbefore i hi) (by simpa using hret) hst
    simpa [execute_with_retry] using this
  · intro hfail
    have := retryGo_allfail tool N N 0 none (by intro i hi; simpa using hfail i hi)
    rw [execute_with_retry, this]
    refine ⟨rfl, by simp, rfl, ?_⟩
    intro m hm
    subst hm
    simp [lastErrAfter]
  · intro k rem le msg h
    rw [retryGo, h]

/-- Witness for C2: a tool raising on attempt 0 and succeeding on attempt 1
returns the success after exactly 2 attempts; a tool that always raises
exhausts `maxRetries = 2` with the stated message and the last error. -/
theorem execute_with_retry_contract_witness :
    execute_with_retry toolSecondTry 3 = (okOut, 2) ∧
    (execute_with_retry toolAlwaysRaises 2).1.message = "Failed after 2 attempts" ∧
    (execute_with_retry toolAlwaysRaises 2).1.error = some "down" := by
  refine ⟨?_, ?_, ?_⟩
  · exact (execute_with_retry_contract toolSecondTry 3).2.1 1 okOut (by omega)
      (by intro i hi; interval_cases i; rfl) rfl rfl
  · exact ((execute_with_retry_contract toolAlwaysRaises 2).2.2.1
      (by intro i _; rfl)).2.2.1
  · have h := ((execute_with_retry_contract toolAlwaysRaises 2).2.2.1
      (by intro i _; rfl)).2.2.2 1 rfl
    simpa [observedError, toolAlwaysRaises] using h

/-- C10.  `extract_duration` tries its unit patterns in the fixed order
minutes, hours, days, weeks: whenever the minutes pattern matches anywhere
in the lower-cased text its value is returned (as minutes), an hours match
is used only when the minutes pattern fails, and the result is `none`
exactly when none of the four patterns matches; in particular
"1 hour 30 minutes" yields 30 minutes. -/
theorem extract_duration_order (text : String) :
    (∀ n, durPatSearch minuteUnits (lowerList text.data) = some n →
      extract_duration text = some (60 * (n : Int))) ∧
    (durPatSearch minuteUnits (lowerList text.data) = none →
      ∀ n, durPatSearch hourUnits (lowerList text.data) = some n →
        extract_duration text = some (3600 * (n : Int))) ∧
    (extract_duration text = none ↔
      (durPatSearch minuteUnits (lowerList text.data) = none ∧
       durPatSearch hourUnits (lowerList text.data) = none ∧
       durPatSearch dayUnits (lowerList text.data) = none ∧
       durPatSearch weekUnits (lowerList text.data) = none)) ∧
    extract_duration "1 hour 30 minutes" = some 1800 := by
  refine ⟨?_, ?_, ?_, by rfl⟩
  · intro n h; simp [extract_duration, h]
  · intro h0 n h; simp [extract_duration, h0, h]
  · constructor
    · intro h
      rcases h1 : durPatSearch minuteUnits (lowerList text.data) with _ | n1
      · rcases h2 : durPatSearch hourUnits (lowerList text.data) with _ | n2
        · rcases h3 : durPatSearch dayUnits (lowerList text.data) with _ | n3
          · rcases h4 : durPatSearch weekUnits (lowerList text.data) with _ | n4
            · exact ⟨rfl, rfl, rfl, rfl⟩
            · simp [extract_duration, h1, h2, h3, h4] at h
          · simp [extract_duration, h1, h2, h3] at h
        · simp [extract_duration, h1, h2] at h
      · simp [extract_duration, h1] at h
    · rintro ⟨h1, h2, h3, h4⟩
      simp [extract_duration, h1, h2, h3, h4]

/-- Witness for C10: on "1 hour 30 minutes" the minutes pattern matches with
value 30, so the result is 30 minutes (1800 seconds) although an hours
expression appears first in the text. -/
theorem extract_duration_order_witness :
    durPatSearch minuteUnits (lowerList ("1 hour 30 minutes").data) = some 30 ∧
    extract_duration "1 hour 30 minutes" = some (60 * ((30 : Nat) : Int)) := by
  refine ⟨rfl, ?_⟩
  exact (extract_duration_order "1 hour 30 minutes").1 30 rfl

/-- C5 (amended is not needed: confirmed).  Every plan produced by
`create_plan` with `requires_clarification = true` has an empty step list and
carries exactly one question per mapped missing field; conversely a plan may
have zero steps without requiring clarification, e.g. the unmatched intent
`general_query`. -/
theorem create_plan_clarification_invariant :
    (∀ (rh : RegexHelpers) (enable : Bool) (intent : String)
        (entities : List (String × PyVal)),
      (create_plan rh enable intent entities).requires_clarification = true →
      (create_plan rh enable intent entities).steps = [] ∧
      (create_plan rh enable intent entities).clarifying_questions
        = (check_missing_info intent entities).filterMap question_map) ∧
    ((create_plan rhTrivial true "general_query" []).steps = [] ∧
     (create_plan rhTrivial true "general_query" []).requires_clarification = false) := by
  constructor
  · intro rh enable intent entities h
    by_cases hc : (!(check_missing_info intent entities).isEmpty && enable) = true
    · constructor
      · simp [create_plan, hc]
      · simp [create_plan, hc, generate_clarifying_questions]
    · rw [create_plan] at h
      rw [Bool.not_eq_true] at hc
      rw [hc] at h
      simp at h
  · exact ⟨rfl, rfl⟩

/-- Witness for C5: with clarification enabled and an empty entity set,
`create_event` produces a clarification plan; the theorem then gives the
empty step list and the table-mapped questions. -/
theorem create_plan_clarification_invariant_witness :
    (create_plan rhTrivial true "create_event" []).requires_clarification = true ∧
    ((create_plan rhTrivial true "create_event" []).steps = [] ∧
     (create_plan rhTrivial true "create_event" []).clarifying_questions
       = (check_missing_info "create_event" []).filterMap question_map) :=
  ⟨rfl, create_plan_clarification_invariant.1 rhTrivial true "create_event" [] rfl⟩

/-- C7 counterexample.  `mark_reminder_sent` is not a no-op on an already
sent reminder: marking at time 10 and again at time 20 restamps `sent_at`
from 10 to 20 (the status does stay "sent"). -/
theorem mark_reminder_sent_restamps_cex :
    mark_reminder_sent [{ id := 1, is_sent := false, sent_at := none, status := "active" }] 1 10
      = [{ id := 1, is_sent := true, sent_at := some 10, status := "sent" }] ∧
    mark_reminder_sent
        (mark_reminder_sent
          [{ id := 1, is_sent := false, sent_at := none, status := "active" }] 1 10) 1 20
      = [{ id := 1, is_sent := true, sent_at := some 20, status := "sent" }] ∧
    (some (20 : Int) ≠ some (10 : Int)) := by
  exact ⟨rfl, rfl, by decide⟩

/-- C7 amended.  Marking a reminder sent twice is equivalent to marking it
once at the second invocation's time: the status stays "sent" and `is_sent`
stays true, but `sent_at` is restamped to the second invocation's current
time (so the second call is a no-op only when both calls carry the same
timestamp). -/
theorem mark_reminder_sent_amended (db : List Reminder) (rid t1 t2 : Int) :
    mark_reminder_sent (mark_reminder_sent db rid t1) rid t2
      = mark_reminder_sent db rid t2 ∧
    ∀ r ∈ mark_reminder_sent (mark_reminder_sent db rid t1) rid t2,
      r.id = rid → r.status = "sent" ∧ r.is_sent = true ∧ r.sent_at = some t2 := by
  constructor
  · rw [mark_reminder_sent, mark_reminder_sent, mark_reminder_sent, List.map_map]
    congr 1
    funext r
    by_cases h : r.id = rid
    · simp [Function.comp, h]
    · simp [Function.comp, h]
  · intro r hr hid
    rw [mark_reminder_sent, mark_reminder_sent, List.map_map] at hr
    obtain ⟨r0, _, heq⟩ := List.mem_map.mp hr
    by_cases h : r0.id = rid
    · rw [Function.comp_apply] at heq
      rw [if_pos h] at heq
      rw [if_pos (by simp [h])] at heq
      subst heq
      exact ⟨rfl, rfl, rfl⟩
    · rw [Function.comp_apply] at heq
      rw [if_neg h, if_neg h] at heq
      subst heq
      exact absurd hid h

/-- Witness for C7 amended: marking reminder 1 at time 10 then at time 20
equals marking it once at time 20, and the resulting row has status "sent",
`is_sent` true and `sent_at = 20`. -/
theorem mark_reminder_sent_amended_witness :
    (mark_reminder_sent
        (mark_reminder_sent
          [{ id := 1, is_sent := false, sent_at := none, status := "active" }] 1 10) 1 20
      = mark_reminder_sent
          [{ id := 1, is_sent := false, sent_at := none, status := "active" }] 1 20) ∧
    (({ id := 1, is_sent := true, sent_at := some 20, status := "sent" } : Reminder).status
        = "sent" ∧
     ({ id := 1, is_sent := true, sent_at := some 20, status := "sent" } : Reminder).is_sent
        = true ∧
     ({ id := 1, is_sent := true, sent_at := some 20, status := "sent" } : Reminder).sent_at
        = some 20) := by
  have h := mark_reminder_sent_amended
    [{ id := 1, is_sent := false, sent_at := none, status := "active" }] 1 10 20
  refine ⟨h.1, ?_⟩
  exact h.2 { id := 1, is_sent := true, sent_at := some 20, status := "sent" }
    (by decide) rfl

/-- C9.  When no tool of the step's name is registered, registry lookup
returns `none`, dispatching the step yields a returned failure result (not an
exception) with error "Tool not registered", and executing a one-step plan
containing it still returns an aggregate result listing that error, with the
aggregate success flag false. -/
theorem unregistered_tool_failure (reg : List (String × MCP)) (bi : BuildInput)
    (ctx : List (String × PyVal)) (st : Step)
    (h : registryGet reg st.tool = none) :
    (executeStep reg bi ctx st
       = .ok { status := .failure, data := .vnone,
               message := "Tool " ++ st.tool ++ " not found",
               error := some "Tool not registered", metadata := [] }) ∧
    ((execute_plan reg bi
        { steps := [st], requires_clarification := false,
          clarifying_questions := [] }).errors
      = ["Step " ++ toString st.step ++ " failed: Tool not registered"]) ∧
    ((execute_plan reg bi
        { steps := [st], requires_clarification := false,
          clarifying_questions := [] }).success = false) ∧
    (∀ name, registryGet ([] : List (String × MCP)) name = none) := by
  have hstep : executeStep reg bi ctx st
      = .ok { status := .failure, data := .vnone,
              message := "Tool " ++ st.tool ++ " not found",
              error := some "Tool not registered", metadata := [] } := by
    simp [executeStep, h]
  have hstep0 : executeStep reg bi [] st
      = .ok { status := .failure, data := .vnone,
              message := "Tool " ++ st.tool ++ " not found",
              error := some "Tool not registered", metadata := [] } := by
    simp [executeStep, h]
  refine ⟨hstep, ?_, ?_, fun name => rfl⟩
  · simp [execute_plan, stepFold, hstep0, pyFormatOptStr]
    rw [String.append_assoc]
    rfl
  · simp [execute_plan, stepFold, hstep0]

/-- Witness for C9: the empty registry and a step naming `CalendarMCP`. -/
theorem unregistered_tool_failure_witness :
    (executeStep [] demoBuild [] demoStep
       = .ok { status := .failure, data := .vnone,
               message := "Tool " ++ demoStep.tool ++ " not found",
               error := some "Tool not registered", metadata := [] }) ∧
    ((execute_plan [] demoBuild
        { steps := [demoStep], requires_clarification := false,
          clarifying_questions := [] }).errors
      = ["Step " ++ toString demoStep.step ++ " failed: Tool not registered"]) := by
  have h := unregistered_tool_failure [] demoBuild [] demoStep rfl
  exact ⟨h.1, h.2.1⟩

/-- C1 counterexample.  On the message "wait 0 minutes" a duration entity is
extracted (`timedelta(0)`), the external parser returns a past datetime
(-300 with `now = 0`), so by the claim the final datetime should be
recomputed to `now + duration = 0`; but `timedelta(0)` is falsy in Python,
the recompute block is skipped, and the past datetime is kept. -/
theorem relative_recompute_zero_duration_cex :
    (extract_event_info (fun _ => some (-300)) rbNone "wait 0 minutes").duration
      = some 0 ∧
    (extract_event_info (fun _ => some (-300)) rbNone "wait 0 minutes").datetime
      = some (-300) ∧
    ((-300 : Int) < 0) ∧
    (analyze_entities (fun _ => some (-300)) rbNone 0 "wait 0 minutes").datetime
      = some (-300) ∧
    (some (-300 : Int) ≠ some ((0 : Int) + 0)) := by
  exact ⟨rfl, rfl, by decide, rfl, by decide⟩

/-- C1 amended.  Whenever a nonzero duration is extracted (a zero
`timedelta` is falsy in Python and disables the whole block), the final
datetime is recomputed as `now + duration` exactly when the `is_relative`
condition holds, i.e. when an explicit relative pattern matches, or no
absolute datetime was extracted, or the extracted datetime lies in the past;
in particular a past extracted datetime plus a nonzero duration always gives
`now + duration`. -/
theorem relative_recompute_amended (pd rb : String → Option Int) (now : Int)
    (msg : String) (d : Int)
    (hdur : (extract_event_info pd rb msg).duration = some d) (hd0 : d ≠ 0) :
    ((analyze_entities pd rb now msg).datetime
       = (if isRelativeFor msg (extract_event_info pd rb msg).datetime now
          then some (now + d) else (extract_event_info pd rb msg).datetime)) ∧
    (∀ t, (extract_event_info pd rb msg).datetime = some t → t < now →
      (analyze_entities pd rb now msg).datetime = some (now + d)) ∧
    (∀ dtOpt : Option Int,
      isRelativeFor msg dtOpt now = true ↔
        (matchesRelativePattern msg = true ∨ dtOpt = none ∨
          ∃ t, dtOpt = some t ∧ t < now)) := by
  have hmain : (analyze_entities pd rb now msg).datetime
      = (if isRelativeFor msg (extract_event_info pd rb msg).datetime now
         then some (now + d) else (extract_event_info pd rb msg).datetime) := by
    rw [analyze_entities]
    simp only [hdur]
    rw [if_neg hd0]
    by_cases hrel : isRelativeFor msg (extract_event_info pd rb msg).datetime now = true
    · simp [hrel]
    · rw [Bool.not_eq_true] at hrel
      simp [hrel]
  refine ⟨hmain, ?_, ?_⟩
  · intro t ht hlt
    have hcond : isRelativeFor msg (extract_event_info pd rb msg).datetime now = true := by
      simp [isRelativeFor, ht, hlt]
    rw [hmain, if_pos hcond]
  · intro dtOpt
    cases dtOpt with
    | none => simp [isRelativeFor]
    | some t =>
      simp [isRelativeFor]

/-! ## Dictionary and merge lemmas -/

theorem dictGet?_set_self (d : List (String × PyVal)) (k : String) (v : PyVal) :
    dictGet? (dictSet d k v) k = some v := by
  induction d with
  | nil => simp [dictSet, dictGet?]
  | cons kv rest ih =>
    obtain ⟨k0, v0⟩ := kv
    by_cases h : k0 = k
    · simp [dictSet, h, dictGet?]
    · simp [dictSet, h, dictGet?, ih]

theorem dictGet?_set_ne (d : List (String × PyVal)) (k k0 : String) (v : PyVal)
    (h : k0 ≠ k) : dictGet? (dictSet d k0 v) k = dictGet? d k := by
  induction d with
  | nil => simp [dictSet, dictGet?, h]
  | cons kv rest ih =>
    obtain ⟨k1, v1⟩ := kv
    by_cases h1 : k1 = k0
    · subst h1
      simp [dictSet, dictGet?, h]
    · simp only [dictSet, if_neg h1, dictGet?]
      by_cases h2 : k1 = k
      · simp [h2]
      · simp [h2, ih]

theorem mergeLlm_cons (nd : Option Int) (ents : List (String × PyVal))
    (kv : String × PyVal) (rest : List (String × PyVal)) :
    mergeLlmEntities nd ents (kv :: rest)
      = mergeLlmEntities nd
          (if kv.1 == "datetime" && durTruthy nd then ents
           else
             match kv.2 with
             | .vnone => ents
             | _ => dictSet ents kv.1 kv.2) rest := rfl

theorem merge_preserves_datetime (nd : Option Int) (hnd : durTruthy nd = true) :
    ∀ (llm ents : List (String × PyVal)),
      dictGet? (mergeLlmEntities nd ents llm) "datetime" = dictGet? ents "datetime" := by
  intro llm
  induction llm with
  | nil => intro ents; rfl
  | cons kv rest ih =>
    intro ents
    rw [mergeLlm_cons]
    by_cases hk : kv.1 = "datetime"
    · rw [if_pos (by simp [hk, hnd])]
      exact ih ents
    · rw [if_neg (by simp [hk])]
      cases hv : kv.2
      · exact ih ents
      all_goals
        dsimp only
        rw [ih]
        exact dictGet?_set_ne ents "datetime" kv.1 _ hk

theorem merge_get_of_not_mem (nd : Option Int) :
    ∀ (rest acc : List (String × PyVal)) (k : String),
      k ∉ rest.map Prod.fst →
      dictGet? (mergeLlmEntities nd acc rest) k = dictGet? acc k := by
  intro rest
  induction rest with
  | nil => intro acc k _; rfl
  | cons kv tl ih =>
    intro acc k hk
    have hk1 : kv.1 ≠ k := by
      intro he
      exact hk (by simp [he])
    have hk2 : k ∉ tl.map Prod.fst := by
      intro hm
      exact hk (by simp [hm])
    rw [mergeLlm_cons]
    by_cases hguard : (kv.1 == "datetime" && durTruthy nd) = true
    · rw [if_pos hguard]
      exact ih acc k hk2
    · rw [if_neg hguard]
      cases hv : kv.2
      · exact ih acc k hk2
      all_goals
        dsimp only
        rw [ih _ k hk2]
        exact dictGet?_set_ne acc k kv.1 _ hk1

theorem merge_sets_key (nd : Option Int) :
    ∀ (llm ents : List (String × PyVal)) (k : String) (v : PyVal),
      (llm.map Prod.fst).Nodup → k ≠ "datetime" → v ≠ .vnone →
      dictGet? llm k = some v →
      dictGet? (mergeLlmEntities nd ents llm) k = some v := by
  intro llm
  induction llm with
  | nil => intro ents k v _ _ _ h; simp [dictGet?] at h
  | cons kv rest ih =>
    intro ents k v hnodup hkd hv hget
    obtain ⟨k0, v0⟩ := kv
    rw [mergeLlm_cons]
    rw [dictGet?] at hget
    by_cases h : k0 = k
    · rw [if_pos h] at hget
      injection hget with hv0
      subst hv0
      subst h
      have hnm : k0 ∉ rest.map Prod.fst := by
        have := hnodup
        simp only [List.map_cons] at this
        exact (List.nodup_cons.mp this).1
      rw [if_neg (by simp [hkd])]
      cases v0
      · exact absurd rfl hv
      all_goals
        dsimp only
        rw [merge_get_of_not_mem nd rest _ k0 hnm]
        exact dictGet?_set_self ents k0 _
    · rw [if_neg h] at hget
      have hnodup' : (rest.map Prod.fst).Nodup := by
        have := hnodup
        simp only [List.map_cons] at this
        exact (List.nodup_cons.mp this).2
      exact ih _ k v hnodup' hkd hv hget

theorem analyze_entities_duration (pd rb : String → Option Int) (now : Int)
    (msg : String) :
    (analyze_entities pd rb now msg).duration
      = (extract_event_info pd rb msg).duration := by
  rw [analyze_entities]
  cases hdur : (extract_event_info pd rb msg).duration with
  | none => dsimp only; exact hdur
  | some d =>
    dsimp only
    by_cases h0 : d = 0
    · rw [if_pos h0]; exact hdur
    · rw [if_neg h0]
      by_cases hrel : isRelativeFor msg (extract_event_info pd rb msg).datetime now = true
      · rw [if_pos hrel]
      · rw [if_neg hrel]; exact hdur

theorem analyze_entities_datetime_rel (pd rb : String → Option Int) (now : Int)
    (msg : String) (d : Int)
    (hdur : (extract_event_info pd rb msg).duration = some d) (hd0 : d ≠ 0)
    (hrel : isRelativeFor msg (extract_event_info pd rb msg).datetime now = true) :
    (analyze_entities pd rb now msg).datetime = some (now + d) := by
  rw [analyze_entities]
  simp only [hdur]
  rw [if_neg hd0, if_pos hrel]

/-- C6.  When the rule-based pass has recomputed the datetime from a
(nonzero) extracted duration, the LLM entity-merge pass keeps that computed
datetime — the datetime key is skipped because the original duration is
truthy — while every other non-`None` LLM value is merged into the entity
set. -/
theorem llm_merge_preserves_datetime (pd rb : String → Option Int)
    (llm : List (String × PyVal)) (now : Int) (msg : String) (d : Int)
    (hdur : (extract_event_info pd rb msg).duration = some d) (hd0 : d ≠ 0)
    (hrel : isRelativeFor msg (extract_event_info pd rb msg).datetime now = true) :
    (dictGet? (analyze_message pd rb true llm now msg).2 "datetime"
       = some (.vtime (now + d))) ∧
    (∀ k v, k ≠ "datetime" → v ≠ PyVal.vnone → (llm.map Prod.fst).Nodup →
      dictGet? llm k = some v →
      dictGet? (analyze_message pd rb true llm now msg).2 k = some v) := by
  have hd' : (analyze_entities pd rb now msg).duration = some d := by
    rw [analyze_entities_duration]; exact hdur
  have htruthy : durTruthy (analyze_entities pd rb now msg).duration = true := by
    rw [hd']
    simp [durTruthy, hd0]
  constructor
  · rw [analyze_message]
    dsimp only
    rw [if_pos rfl]
    rw [merge_preserves_datetime _ htruthy]
    simp only [eventInfoDict, dictGet?, if_true]
    rw [analyze_entities_datetime_rel pd rb now msg d hdur hd0 hrel]
    rfl
  · intro k v hk hv hnodup hget
    rw [analyze_message]
    dsimp only
    rw [if_pos rfl]
    exact merge_sets_key _ llm _ k v hnodup hk hv hget

/-- Witness for C6: "remind me in 5 minutes" (duration 300, relative
pattern), `now = 0`, and an LLM pass proposing a title and a datetime; the
merged entities keep the computed datetime 300 and adopt the LLM title. -/
theorem llm_merge_preserves_datetime_witness :
    dictGet?
        (analyze_message pdNone rbNone true
          [("title", .vstr "call mom"), ("datetime", .vtime 999)] 0
          "remind me in 5 minutes").2 "datetime"
      = some (.vtime ((0 : Int) + 300)) ∧
    dictGet?
        (analyze_message pdNone rbNone true
          [("title", .vstr "call mom"), ("datetime", .vtime 999)] 0
          "remind me in 5 minutes").2 "title"
      = some (.vstr "call mom") := by
  have h := llm_merge_preserves_datetime pdNone rbNone
    [("title", .vstr "call mom"), ("datetime", .vtime 999)] 0
    "remind me in 5 minutes" 300 rfl (by decide) rfl
  refine ⟨h.1, ?_⟩
  exact h.2 "title" (.vstr "call mom") (by decide) (by intro hc; cases hc)
    (by decide) rfl

/-- C8 counterexample.  On "schedule a meeting" (with no time information)
the title heuristic extracts "a meeting" as the title, so the missing fields
are not `[title, datetime]` and the clarification plan does not carry the two
claimed questions. -/
theorem schedule_meeting_cex :
    (dictGet? (analyze_message pdNone rbNone true [] 0 "schedule a meeting").2 "title"
       = some (.vstr "a meeting")) ∧
    (check_missing_info "create_event"
        (analyze_message pdNone rbNone true [] 0 "schedule a meeting").2
      ≠ ["title", "datetime"]) ∧
    ((create_plan rhTrivial true "create_event"
        (analyze_message pdNone rbNone true [] 0 "schedule a meeting").2).clarifying_questions
      ≠ ["What would you like to call this?", "When should this be?"]) := by
  refine ⟨rfl, ?_, ?_⟩
  · intro h
    have : (["datetime"] : List String) = ["title", "datetime"] := by
      rw [← h]
      rfl
    simp at this
  · intro h
    have : (["When should this be?"] : List String)
        = ["What would you like to call this?", "When should this be?"] := by
      rw [← h]
      rfl
    simp at this

/-- C8 amended.  On "schedule a meeting" with no time information the
pipeline yields intent `create_event`, the title heuristic extracts
"a meeting" as the title, the missing required fields are exactly
`[datetime]`, and the plan requires clarification with exactly the single
question "When should this be?".  Clarifying questions always come from the
fixed field-to-question table, and a missing field with no table entry is
silently skipped. -/
theorem schedule_meeting_amended :
    ((analyze_message pdNone rbNone true [] 0 "schedule a meeting").1
       = "create_event") ∧
    (dictGet? (analyze_message pdNone rbNone true [] 0 "schedule a meeting").2 "title"
       = some (.vstr "a meeting")) ∧
    (check_missing_info "create_event"
        (analyze_message pdNone rbNone true [] 0 "schedule a meeting").2
      = ["datetime"]) ∧
    ((create_plan rhTrivial true "create_event"
        (analyze_message pdNone rbNone true [] 0 "schedule a meeting").2).requires_clarification
      = true) ∧
    ((create_plan rhTrivial true "create_event"
        (analyze_message pdNone rbNone true [] 0 "schedule a meeting").2).steps = []) ∧
    ((create_plan rhTrivial true "create_event"
        (analyze_message pdNone rbNone true [] 0 "schedule a meeting").2).clarifying_questions
      = ["When should this be?"]) ∧
    (∀ (i : String) (missing : List String),
      generate_clarifying_questions i missing = missing.filterMap question_map) ∧
    (∀ i : String, generate_clarifying_questions i ["nonexistent_field"] = []) := by
  exact ⟨rfl, rfl, rfl, rfl, rfl, rfl, fun i missing => rfl, fun i => rfl⟩

/-! ## Substitution lemmas -/

theorem substGo_nil (ctx : List (String × PyVal)) (fuel : Nat) :
    substGo ctx fuel [] = [] := by
  cases fuel with
  | zero => rfl
  | succ g => rfl

theorem substStep_other (ctx : List (String × PyVal)) (c : Char) (rest : List Char)
    (h : c ≠ '$') : substStep ctx (c :: rest) = ([c], rest) := by
  unfold substStep
  dsimp only
  rw [if_neg h]

theorem substStep_snd_lt (ctx : List (String × PyVal)) (c : Char) (rest : List Char) :
    (substStep ctx (c :: rest)).2.length < (c :: rest).length := by
  by_cases hc : c = '$'
  · subst hc
    unfold substStep
    dsimp only
    rw [if_pos rfl]
    cases rest with
    | nil => simp
    | cons c2 rest2 =>
      by_cases h2 : c2 = '{'
      · subst h2
        dsimp only
        rw [if_pos rfl]
        by_cases hne : (rest2.takeWhile isWordChar).isEmpty
        · rw [if_pos hne]; simp
        · rw [if_neg hne]
          cases hdrop : rest2.drop (rest2.takeWhile isWordChar).length with
          | nil => simp
          | cons c3 rest3 =>
            dsimp only
            by_cases h3 : c3 = '}'
            · rw [if_pos h3]
              have hlen : (rest2.drop (rest2.takeWhile isWordChar).length).length
                  = rest3.length + 1 := by rw [hdrop]; rfl
              rw [List.length_drop] at hlen
              simp only [List.length_cons]
              omega
            · rw [if_neg h3]; simp
      · dsimp only
        rw [if_neg h2]
        simp
  · rw [substStep_other ctx c rest hc]
    simp

theorem substGo_mono (ctx : List (String × PyVal)) :
    ∀ (f1 : Nat) (l : List Char) (f2 : Nat), l.length ≤ f1 → l.length ≤ f2 →
      substGo ctx f1 l = substGo ctx f2 l := by
  intro f1
  induction f1 with
  | zero =>
    intro l f2 h1 _
    have hl : l = [] := List.length_eq_zero.mp (Nat.le_zero.mp h1)
    subst hl
    rw [substGo_nil, substGo_nil]
  | succ g ih =>
    intro l f2 h1 h2
    cases l with
    | nil => rw [substGo_nil, substGo_nil]
    | cons c rest =>
      cases f2 with
      | zero => simp at h2
      | succ g2 =>
        rw [substGo, substGo]
        congr 1
        have hlt := substStep_snd_lt ctx c rest
        apply ih
        · simp only [List.length_cons] at h1 hlt ⊢
          omega
        · simp only [List.length_cons] at h2 hlt ⊢
          omega

theorem takeWhile_name (name post : List Char)
    (h : ∀ ch ∈ name, isWordChar ch = true) :
    (name ++ '}' :: post).takeWhile isWordChar = name := by
  induction name with
  | nil => rfl
  | cons a nm ih =>
    have ha : isWordChar a = true := h a (by simp)
    simp only [List.cons_append, List.takeWhile_cons, ha, if_true]
    rw [ih (fun ch hch => h ch (by simp [hch]))]

theorem substStep_token (ctx : List (String × PyVal)) (name post : List Char)
    (hne : name ≠ []) (hw : ∀ ch ∈ name, isWordChar ch = true) :
    substStep ctx ('$' :: '{' :: (name ++ '}' :: post)) = (replName ctx name, post) := by
  unfold substStep
  dsimp only
  rw [if_pos rfl, if_pos rfl]
  rw [takeWhile_name name post hw]
  rw [if_neg (by simp [hne])]
  rw [List.drop_left]
  dsimp only
  rw [if_pos rfl]

theorem substGo_token (ctx : List (String × PyVal)) (fuel : Nat) (name post : List Char)
    (hne : name ≠ []) (hw : ∀ ch ∈ name, isWordChar ch = true) :
    substGo ctx (fuel + 1) ('$' :: '{' :: (name ++ '}' :: post))
      = replName ctx name ++ substGo ctx fuel post := by
  rw [substGo, substStep_token ctx name post hne hw]

theorem substGo_pass (ctx : List (String × PyVal)) :
    ∀ pre : List Char, (∀ ch ∈ pre, ch ≠ '$') →
      ∀ (fuel : Nat) (rest : List Char), pre.length + rest.length ≤ fuel →
      substGo ctx fuel (pre ++ rest) = pre ++ substGo ctx (fuel - pre.length) rest := by
  intro pre
  induction pre with
  | nil => intro _ fuel rest _; simp
  | cons c pre' ih =>
    intro hdol fuel rest hlen
    cases fuel with
    | zero => simp at hlen
    | succ g =>
      have hc : c ≠ '$' := hdol c (by simp)
      rw [List.cons_append, substGo, substStep_other ctx c (pre' ++ rest) hc]
      dsimp only
      rw [ih (fun ch hch => hdol ch (by simp [hch])) g rest
        (by simp only [List.length_cons] at hlen; omega)]
      simp [Nat.succ_sub_succ]

/-! ## Context-flow lemmas and the C3/C4 claim theorems -/

theorem contextAfter_metadata_session (ctx : List (String × PyVal))
    (out : MCPOutput) (v : PyVal) (hm : out.metadata ≠ [])
    (hget : dictGet? out.metadata "session_id" = some v) :
    dictGet? (contextAfter ctx out) "session_id" = some v := by
  rw [contextAfter]
  cases hmeta : out.metadata with
  | nil => exact absurd hmeta hm
  | cons m ms =>
    rw [hmeta] at hget
    dsimp only
    rw [hget]
    exact dictGet?_set_self _ "session_id" v

theorem contextAfter_data_session (ctx : List (String × PyVal))
    (out : MCPOutput) (es : List (String × PyVal)) (v : PyVal)
    (hm : out.metadata = []) (hd : out.data = .vdict es) (hne : es ≠ [])
    (hsid : dictGet? es "session_id" = some v)
    (hnod : dictGet? es "data" = none) :
    dictGet? (contextAfter ctx out) "session_id" = some v := by
  rw [contextAfter, hd, hm]
  dsimp only
  rw [if_neg (by simp [hne])]
  rw [hsid]
  dsimp only
  rw [hnod]
  exact dictGet?_set_self ctx "session_id" v

theorem stepFold_nonsuccess_ctx (reg : List (String × MCP)) (bi : BuildInput)
    (results : List MCPOutput) (errors : List String)
    (ctx : List (String × PyVal)) (st : Step) (r : MCPOutput)
    (hstep : executeStep reg bi ctx st = .ok r) (hst : r.status ≠ .success) :
    (stepFold reg bi (results, errors, ctx) st).2.2 = ctx := by
  rw [stepFold, hstep]
  dsimp only
  rw [if_neg hst]

/-- C3.  Placeholder resolution and context flow: every `${name}` token in a
parameter value is replaced by `str` of the context binding for `name`, an
unbound name leaves the token as the literal text (never an error); the
running context is fed from success results — `session_id` from the result
data, the nested data sub-mapping, and `session_id` from the result
metadata, with the metadata value written last and hence taking precedence —
and a non-success result leaves the context unchanged.  Concretely, in the
two-step demo plan whose step 1 places `session_id` in its metadata, step 2's
`${session_id}` parameter resolves to that value, as echoed in the aggregate
result data. -/
theorem placeholder_resolution_context_flow :
    (∀ (ctx : List (String × PyVal)) (pre name post : List Char),
      (∀ ch ∈ pre, ch ≠ '$') → name ≠ [] → (∀ ch ∈ name, isWordChar ch = true) →
      substituteTemplates ctx (String.mk (pre ++ '$' :: '{' :: (name ++ '}' :: post)))
        = String.mk (pre ++ replName ctx name
            ++ (substituteTemplates ctx (String.mk post)).data)) ∧
    (∀ (ctx : List (String × PyVal)) (name : List Char) (v : PyVal),
      dictGet? ctx (String.mk name) = some v → replName ctx name = (pyStr v).data) ∧
    (∀ (ctx : List (String × PyVal)) (name : List Char),
      dictGet? ctx (String.mk name) = none →
      replName ctx name = '$' :: '{' :: (name ++ ['}'])) ∧
    (∀ (ctx : List (String × PyVal)) (out : MCPOutput) (v : PyVal),
      out.metadata ≠ [] → dictGet? out.metadata "session_id" = some v →
      dictGet? (contextAfter ctx out) "session_id" = some v) ∧
    (∀ (ctx : List (String × PyVal)) (out : MCPOutput)
        (es : List (String × PyVal)) (v : PyVal),
      out.metadata = [] → out.data = .vdict es → es ≠ [] →
      dictGet? es "session_id" = some v → dictGet? es "data" = none →
      dictGet? (contextAfter ctx out) "session_id" = some v) ∧
    (∀ (reg : List (String × MCP)) (bi : BuildInput) (results : List MCPOutput)
        (errors : List String) (ctx : List (String × PyVal)) (st : Step)
        (r : MCPOutput),
      executeStep reg bi ctx st = .ok r → r.status ≠ .success →
      (stepFold reg bi (results, errors, ctx) st).2.2 = ctx) ∧
    ((execute_plan demoRegistry demoBuild demoPlan).success = true ∧
     (execute_plan demoRegistry demoBuild demoPlan).data
       = [("results", .vlist
            [.vnone,
             .vdict [("action", .vstr "navigate"),
                     ("session_id", .vstr "abc"),
                     ("url", .vstr "https://example.com")]])]) := by
  refine ⟨?_, ?_, ?_, contextAfter_metadata_session, contextAfter_data_session,
    stepFold_nonsuccess_ctx, rfl, rfl⟩
  · intro ctx pre name post hpre hne hw
    rw [substituteTemplates, substituteTemplates]
    apply congrArg String.mk
    dsimp only
    have hfuel : (pre ++ '$' :: '{' :: (name ++ '}' :: post)).length
        = pre.length + ('$' :: '{' :: (name ++ '}' :: post)).length := by
      rw [List.length_append]
    rw [hfuel]
    rw [substGo_pass ctx pre hpre _ _ (le_refl _)]
    rw [Nat.add_sub_cancel_left]
    have htok : ('$' :: '{' :: (name ++ '}' :: post)).length
        = (name.length + post.length + 2) + 1 := by
      simp [List.length_append]
      omega
    rw [htok]
    rw [substGo_token ctx _ name post hne hw]
    rw [substGo_mono ctx (name.length + post.length + 2) post post.length
      (by omega) (le_refl _)]
    rw [List.append_assoc]
  · intro ctx name v h
    rw [replName, h]
  · intro ctx name h
    rw [replName, h]

/-- Witness for C3: with `session_id` bound to "abc" the token
`${session_id}` resolves to "abc"; `okSession`'s metadata feeds the
context. -/
theorem placeholder_resolution_context_flow_witness :
    substituteTemplates [("session_id", .vstr "abc")]
        (String.mk ([] ++ '$' :: '{' :: ("session_id".data ++ '}' :: [])))
      = String.mk ([] ++ replName [("session_id", .vstr "abc")] ("session_id".data)
          ++ (substituteTemplates [("session_id", .vstr "abc")] (String.mk [])).data) ∧
    dictGet? (contextAfter [] okSession) "session_id" = some (.vstr "abc") := by
  constructor
  · exact placeholder_resolution_context_flow.1 [("session_id", .vstr "abc")] []
      ("session_id".data) [] (by intro ch hch; simp at hch) (by decide) (by decide)
  · exact placeholder_resolution_context_flow.2.2.2.1 [] okSession (.vstr "abc")
      (by exact List.cons_ne_nil _ _) rfl

/-- C4.  `execute_plan` never short-circuits: the step loop is a fold over
all steps (so a failing or raising step still lets every later step run), a
failure result or a dispatch exception records exactly one per-step error
string, the aggregate success flag is true exactly when no error was
recorded, and the summary message is the per-step ✅ line list only when
there are no errors at all, otherwise a single completed-with-errors block
listing all failures. -/
theorem execute_plan_error_aggregation (reg : List (String × MCP)) (bi : BuildInput) :
    (∀ plan : Plan, plan.requires_clarification = false →
      ((execute_plan reg bi plan).success = true ↔
        (execute_plan reg bi plan).errors = [])) ∧
    (∀ (acc : List MCPOutput × List String × List (String × PyVal))
        (s1 s2 : List Step),
      List.foldl (stepFold reg bi) acc (s1 ++ s2)
        = List.foldl (stepFold reg bi) (List.foldl (stepFold reg bi) acc s1) s2) ∧
    (∀ (results : List MCPOutput) (errors : List String)
        (ctx : List (String × PyVal)) (st : Step) (r : MCPOutput),
      executeStep reg bi ctx st = .ok r → r.status = .failure →
      stepFold reg bi (results, errors, ctx) st
        = (results ++ [r],
           errors ++ ["Step " ++ toString st.step ++ " failed: "
             ++ pyFormatOptStr r.error],
           ctx)) ∧
    (∀ (results : List MCPOutput) (errors : List String)
        (ctx : List (String × PyVal)) (st : Step) (e : String),
      executeStep reg bi ctx st = .exn e →
      stepFold reg bi (results, errors, ctx) st
        = (results, errors ++ ["Step " ++ toString st.step ++ " error: " ++ e], ctx)) ∧
    (∀ (results : List MCPOutput) (errors : List String), errors ≠ [] →
      create_summary_message results errors
        = "❌ Completed with errors:\n"
            ++ String.intercalate "\n" (errors.map (fun e => "- " ++ e))) ∧
    (∀ results : List MCPOutput,
      create_summary_message results []
        = if results.isEmpty then "No actions were taken."
          else String.intercalate "\n"
            (results.map fun r =>
              if r.status = .success then "✅ " ++ r.message
              else "⚠️ " ++ r.message)) ∧
    (∀ plan : Plan, plan.requires_clarification = false →
      (execute_plan reg bi plan).message
        = create_summary_message (plan.steps.foldl (stepFold reg bi) ([], [], [])).1
            (plan.steps.foldl (stepFold reg bi) ([], [], [])).2.1) := by
  refine ⟨?_, ?_, ?_, ?_, ?_, ?_, ?_⟩
  · intro plan h
    rw [execute_plan, if_neg (by simp [h])]
    dsimp only
    exact List.isEmpty_iff
  · intro acc s1 s2
    exact List.foldl_append _ _ _ _
  · intro results errors ctx st r hstep hst
    rw [stepFold, hstep]
    dsimp only
    rw [if_pos hst, if_neg (by rw [hst]; exact (by decide : MCPStatus.failure ≠ .success))]
  · intro results errors ctx st e hstep
    rw [stepFold, hstep]
  · intro results errors hne
    cases errors with
    | nil => exact absurd rfl hne
    | cons e es => rfl
  · intro results
    rfl
  · intro plan h
    rw [execute_plan, if_neg (by simp [h])]

/-- Witness for C4: the demo plan is a non-clarification plan (its success
flag is the no-errors test), and dispatching the unregistered demo step from
the empty registry records exactly one per-step failure string. -/
theorem execute_plan_error_aggregation_witness :
    ((execute_plan ([] : List (String × MCP)) demoBuild demoPlan).success = true ↔
      (execute_plan ([] : List (String × MCP)) demoBuild demoPlan).errors = []) ∧
    stepFold ([] : List (String × MCP)) demoBuild ([], [], []) demoStep
      = ([({ status := .failure, data := .vnone,
             message := "Tool " ++ demoStep.tool ++ " not found",
             error := some "Tool not registered", metadata := [] } : MCPOutput)],
         [] ++ ["Step " ++ toString demoStep.step ++ " failed: "
           ++ pyFormatOptStr (some "Tool not registered")],
         []) := by
  constructor
  · exact (execute_plan_error_aggregation [] demoBuild).1 demoPlan rfl
  · have h := (execute_plan_error_aggregation [] demoBuild).2.2.1 [] [] [] demoStep
      { status := .failure, data := .vnone,
        message := "Tool " ++ demoStep.tool ++ " not found",
        error := some "Tool not registered", metadata := [] } rfl rfl
    simpa using h

/-- Witness for C1 amended: "remind me in 5 minutes" with no absolute
datetime extracted and `now = 0` yields the datetime `0 + 300`. -/
theorem relative_recompute_amended_witness :
    (extract_event_info pdNone rbNone "remind me in 5 minutes").duration = some 300 ∧
    (analyze_entities pdNone rbNone 0 "remind me in 5 minutes").datetime
      = some ((0 : Int) + 300) := by
  refine ⟨rfl, ?_⟩
  have h := relative_recompute_amended pdNone rbNone 0 "remind me in 5 minutes" 300
    rfl (by decide)
  rw [h.1]
  rfl

end TeleBot

